import Mathlib

/-!
Verification of the rm-bg repository (src/multi.py and src/single.py).

The two scripts are filesystem glue around an external background-removal
call.  We shallowly embed them over an explicit filesystem state:

* `FS` is a flat map from path strings to nodes (directories with a child
  list, or files carrying abstract content `FData`).
* `PBState` pairs the filesystem with an event trace recording every
  directory creation and file write, so "writes exactly one summary"
  becomes a statement about the trace.
* Images are abstracted to their size and pixel mode (RGB/RGBA) plus a
  ghost flag recording whether white-compositing was applied; `rembg.remove`
  returns an RGBA image of the same size, and `Image.new('RGB',...)` +
  `paste(..., mask=result.split()[3])` becomes `compositeWhite`.
* Python exceptions are `Except String`; `process_batch`'s body is *not*
  wrapped in a try/except in the source, so its embedding returns
  `Except String (BatchReturn × PBState)`, while `remove_background`'s
  body is wrapped in a catch-all try/except and therefore returns a plain
  `SingleReturn × PBState`.
* `datetime.now().strftime(...)` values are passed in as string parameters.
-/

namespace RmBg

/-- Pixel mode of a PIL image, as far as the scripts observe it. -/
inductive Mode where
  | RGB
  | RGBA
deriving DecidableEq, Repr

/-- Abstraction of a PIL image: its size and mode, plus a ghost flag
recording whether it was produced by compositing onto an opaque white
background. -/
structure Image where
  width : Nat
  height : Nat
  mode : Mode
  whiteComposited : Bool
deriving DecidableEq, Repr

/-- Whether the image carries an alpha channel. -/
def Image.hasAlpha (i : Image) : Bool := i.mode == Mode.RGBA

/-- The metadata dict built by `remove_background` (single.py lines 74-83). -/
structure SingleMeta where
  timestamp : String
  input_file : String
  output_file : String
  output_folder : String
  image_size : Nat × Nat
  output_quality : Nat
  preserve_format : Bool
  success : Bool
deriving DecidableEq, Repr

/-- The JSON log `nobdg-images/processing_log.json` (single.py lines 85-103).
Fields are optional because the code tolerates a pre-existing log that
lacks the `processed_images` key. -/
structure ProcLog where
  output_folder : Option String := none
  created : Option String := none
  last_updated : Option String := none
  processed_images : Option (List SingleMeta) := none
deriving DecidableEq, Repr

/-- The metadata dict built by `process_batch` (multi.py lines 96-108). -/
structure BatchMeta where
  timestamp : String
  run_folder : String
  input_folder : String
  total_processed : Nat
  total_failed : Nat
  total_images : Nat
  preserve_format : Bool
  output_quality : Nat
  processed_files : List (String × String)
  failed_files : List (String × String)
  success : Bool
deriving DecidableEq, Repr

/-- Content of a file node. -/
inductive FData where
  | img (i : Image) (readable : Bool)
  | log (l : ProcLog)
  | batchMeta (m : BatchMeta)
  | blob
deriving DecidableEq, Repr

/-- A filesystem node: a directory (with its list of entry names) or a file. -/
inductive Node where
  | dir (children : List String)
  | file (d : FData)
deriving DecidableEq, Repr

/-- Association-list lookup over path/node pairs; the first binding wins. -/
def lookupNodes : List (String × Node) → String → Option Node
  | [], _ => none
  | (q, n) :: rest, p => if q = p then some n else lookupNodes rest p

/-- A flat filesystem: full path strings mapped to nodes. -/
structure FS where
  nodes : List (String × Node)
deriving DecidableEq, Repr

def FS.lookup (fs : FS) (p : String) : Option Node := lookupNodes fs.nodes p

/-- `os.path.exists`. -/
def FS.pathExists (fs : FS) (p : String) : Bool := (fs.lookup p).isSome

/-- Whether a directory sits at path `p`. -/
def FS.isDirAt (fs : FS) (p : String) : Bool :=
  match fs.lookup p with
  | some (Node.dir _) => true
  | _ => false

def FS.setNode (fs : FS) (p : String) (n : Node) : FS := ⟨(p, n) :: fs.nodes⟩

/-- `os.path.join` for the single-separator joins the scripts perform. -/
def pjoin (d name : String) : String := d ++ "/" ++ name

/-- `os.listdir`: raises `FileNotFoundError` / `NotADirectoryError` when the
path is missing or is a regular file. -/
def FS.listdir (fs : FS) (p : String) : Except String (List String) :=
  match fs.lookup p with
  | some (Node.dir ch) => Except.ok ch
  | some (Node.file _) => Except.error ("NotADirectoryError: " ++ p)
  | none => Except.error ("FileNotFoundError: " ++ p)

/-- `open(os.path.join(d, name), 'w')` + write: fails when the directory is
missing or not a directory, when the target is an existing directory, or
when the name is not a creatable filename. -/
def FS.writeFile (fs : FS) (d name : String) (data : FData) : Except String FS :=
  if name = "" ∨ name = "." ∨ name = ".." then
    Except.error ("IsADirectoryError: " ++ pjoin d name)
  else
    match fs.lookup d with
    | some (Node.dir ch) =>
      match fs.lookup (pjoin d name) with
      | some (Node.dir _) => Except.error ("IsADirectoryError: " ++ pjoin d name)
      | _ =>
        Except.ok ((fs.setNode d
          (Node.dir (if name ∈ ch then ch else ch ++ [name]))).setNode
            (pjoin d name) (Node.file data))
    | some (Node.file _) => Except.error ("NotADirectoryError: " ++ d)
    | none => Except.error ("FileNotFoundError: " ++ d)

/-- Side-effect events: directory creations and file writes. -/
inductive Event where
  | mkdir (path : String)
  | write (path : String) (d : FData)
deriving DecidableEq, Repr

/-- Program state: the filesystem plus the trace of effects performed. -/
structure PBState where
  fs : FS
  events : List Event
deriving DecidableEq, Repr

/-- `os.makedirs(p)` when `p` does not yet exist. -/
def PBState.mkdir (st : PBState) (p : String) : PBState :=
  ⟨st.fs.setNode p (Node.dir []), st.events ++ [Event.mkdir p]⟩

/-- `os.makedirs(p, exist_ok=True)`: a no-op on an existing directory, a
`FileExistsError` on an existing file. -/
def PBState.makedirsExistOk (st : PBState) (p : String) : Except String PBState :=
  match st.fs.lookup p with
  | some (Node.dir _) => Except.ok st
  | some (Node.file _) => Except.error ("FileExistsError: " ++ p)
  | none => Except.ok (st.mkdir p)

/-- A file write, recorded in the event trace. -/
def PBState.write (st : PBState) (d name : String) (data : FData) :
    Except String PBState :=
  match st.fs.writeFile d name data with
  | Except.ok fs' => Except.ok ⟨fs', st.events ++ [Event.write (pjoin d name) data]⟩
  | Except.error e => Except.error e

/-- `PIL.Image.open`: succeeds only on a readable image file. -/
def imageOpen (fs : FS) (p : String) : Except String Image :=
  match fs.lookup p with
  | some (Node.file (FData.img i true)) => Except.ok i
  | some (Node.file _) => Except.error ("UnidentifiedImageError: " ++ p)
  | some (Node.dir _) => Except.error ("IsADirectoryError: " ++ p)
  | none => Except.error ("FileNotFoundError: " ++ p)

/-- `rembg.remove`: an RGBA image of the same size. -/
def removeBg (i : Image) : Image :=
  { width := i.width, height := i.height, mode := Mode.RGBA, whiteComposited := false }

/-- `Image.new('RGB', result.size, (255, 255, 255))` followed by
`rgb_image.paste(result, mask=result.split()[3])`: band 3 exists only for
an RGBA image, otherwise an IndexError is raised. -/
def compositeWhite (i : Image) : Except String Image :=
  if i.mode = Mode.RGBA then
    Except.ok { width := i.width, height := i.height, mode := Mode.RGB,
                whiteComposited := true }
  else
    Except.error "IndexError: band index out of range"

/-- The index of the last occurrence of `c`, if any. -/
def rfindChar (c : Char) : List Char → Option Nat
  | [] => none
  | x :: xs =>
    match rfindChar c xs with
    | some i => some (i + 1)
    | none => if x = c then some 0 else none

/-- The root part of `os.path.splitext` on a bare filename: everything up
to the last dot, unless every character before that dot is itself a dot. -/
def splitextRoot (s : String) : String :=
  match rfindChar '.' s.data with
  | none => s
  | some i =>
      if (s.data.take i).all (fun c => c = '.') then s else ⟨s.data.take i⟩

/-- Split a character list at every slash. -/
def splitSlash : List Char → List (List Char)
  | [] => [[]]
  | c :: rest =>
    if c = '/' then [] :: splitSlash rest
    else
      match splitSlash rest with
      | [] => [[c]]
      | h :: t => (c :: h) :: t

/-- The components of a POSIX path as pathlib normalises them: empty and
single-dot components are dropped. -/
def pathParts (s : String) : List (List Char) :=
  (splitSlash s.data).filter (fun p => !(p == [] || p == ['.']))

/-- `pathlib.Path(s).name`: the final normalised component, or `""`. -/
def pathName (s : String) : String :=
  match (pathParts s).getLast? with
  | some p => ⟨p⟩
  | none => ""

/-- `pathlib.Path(s).stem`: the name with its final suffix removed; a
suffix exists only when the last dot is neither first nor last. -/
def pathStem (s : String) : String :=
  let n := pathName s
  match rfindChar '.' n.data with
  | some i => if 0 < i ∧ i + 1 < n.data.length then ⟨n.data.take i⟩ else n
  | none => n

/-- `str.lower` (character-wise, as for the ASCII filenames involved). -/
def strLower (s : String) : String := ⟨s.data.map Char.toLower⟩

/-- `str.endswith` for a single suffix. -/
def strEndsWith (s suffix : String) : Bool := suffix.data.isSuffixOf s.data

/-- `str.endswith` applied to a tuple of suffixes. -/
def endsWithAny (s : String) (exts : List String) : Bool :=
  exts.any (fun e => strEndsWith s e)

/-- multi.py line 18. -/
def SUPPORTED_FORMATS : List String := [".png", ".jpg", ".jpeg", ".bmp", ".webp"]

/-- multi.py lines 50-51: the list comprehension selecting image files. -/
def selectFiles (names : List String) : List String :=
  names.filter (fun f => endsWithAny (strLower f) SUPPORTED_FORMATS)

/-- The return dict of `process_batch`: the union of the key sets of the
three dicts the Python function can return, with absent keys as `none`. -/
structure BatchReturn where
  success : Bool
  error : Option String := none
  run_folder : Option String := none
  processed : Option Nat := none
  failed : Option Nat := none
  timestamp : Option String := none
  input_folder : Option String := none
  total_processed : Option Nat := none
  total_failed : Option Nat := none
  total_images : Option Nat := none
  preserve_format : Option Bool := none
  output_quality : Option Nat := none
  processed_files : Option (List (String × String)) := none
  failed_files : Option (List (String × String)) := none
deriving DecidableEq, Repr

/-- The batch metadata dict viewed as a `process_batch` return value. -/
def BatchMeta.toReturn (m : BatchMeta) : BatchReturn :=
  { success := m.success, timestamp := some m.timestamp,
    run_folder := some m.run_folder, input_folder := some m.input_folder,
    total_processed := some m.total_processed,
    total_failed := some m.total_failed, total_images := some m.total_images,
    preserve_format := some m.preserve_format,
    output_quality := some m.output_quality,
    processed_files := some m.processed_files,
    failed_files := some m.failed_files }

/-- The body of the per-file loop of `process_batch` (multi.py lines 66-88,
up to the bookkeeping): open, remove, save; any failure is returned as the
stringified exception. On success, returns the new state and the output
file name. -/
def processOne (st : PBState) (input_folder output_folder filename : String)
    (preserve_format : Bool) (quality : Nat) :
    Except String (PBState × String) :=
  match imageOpen st.fs (pjoin input_folder filename) with
  | Except.error e => Except.error e
  | Except.ok img =>
    let result := removeBg img
    if preserve_format && endsWithAny (strLower filename) [".jpg", ".jpeg"] then
      let output_name := splitextRoot filename ++ ".jpg"
      match compositeWhite result with
      | Except.error e => Except.error e
      | Except.ok rgb_image =>
        match st.write output_folder output_name (FData.img rgb_image true) with
        | Except.error e => Except.error e
        | Except.ok st' => Except.ok (st', output_name)
    else
      let output_name := splitextRoot filename ++ ".png"
      match st.write output_folder output_name (FData.img result true) with
      | Except.error e => Except.error e
      | Except.ok st' => Except.ok (st', output_name)

/-- The `for filename in image_files` loop of `process_batch` (multi.py
lines 57-93), threading the state, the two counters and the two lists. -/
def batchLoop (input_folder output_folder : String) (preserve_format : Bool)
    (quality : Nat) :
    PBState → List String → Nat → Nat → List (String × String) →
      List (String × String) →
      PBState × Nat × Nat × List (String × String) × List (String × String)
  | st, [], s, f, ps, fl => (st, s, f, ps, fl)
  | st, filename :: rest, s, f, ps, fl =>
    match processOne st input_folder output_folder filename preserve_format quality with
    | Except.ok (st', oname) =>
        batchLoop input_folder output_folder preserve_format quality st' rest
          (s + 1) f (ps ++ [(filename, oname)]) fl
    | Except.error e =>
        batchLoop input_folder output_folder preserve_format quality st rest
          s (f + 1) ps (fl ++ [(filename, e)])

/-- multi.py `process_batch`. `now` stands for the strftime value taken
when naming the default batch folder (line 42), `nowMeta` for the one
taken when assembling the metadata (line 97). The body is not protected
by a try/except, so exceptions escape as `Except.error`. -/
def process_batch (now nowMeta : String) (st : PBState) (input_folder : String)
    (output_folder? : Option String) (preserve_format : Bool) (quality : Nat) :
    Except String (BatchReturn × PBState) :=
  if !st.fs.pathExists input_folder then
    Except.ok ({ success := false, error := some "Input folder not found",
                 run_folder := none }, st)
  else
    let output_folder := output_folder?.getD ("batch_" ++ now)
    let st := if st.fs.pathExists output_folder then st else st.mkdir output_folder
    match st.fs.listdir input_folder with
    | Except.error e => Except.error e
    | Except.ok names =>
      let image_files := selectFiles names
      if image_files.isEmpty then
        Except.ok ({ success := false, error := some "No image files found",
                     run_folder := some output_folder, processed := some 0,
                     failed := some 0 }, st)
      else
        let r := batchLoop input_folder output_folder preserve_format quality
          st image_files 0 0 [] []
        let metadata : BatchMeta :=
          { timestamp := nowMeta, run_folder := output_folder,
            input_folder := input_folder, total_processed := r.2.1,
            total_failed := r.2.2.1, total_images := image_files.length,
            preserve_format := preserve_format, output_quality := quality,
            processed_files := r.2.2.2.1, failed_files := r.2.2.2.2,
            success := r.2.2.1 == 0 }
        match r.1.write output_folder "batch_metadata.json" (FData.batchMeta metadata) with
        | Except.error e => Except.error e
        | Except.ok st => Except.ok (metadata.toReturn, st)

/-- The result of `remove_background`: the metadata dict on success, or
the failure dict carrying the error string. -/
inductive SingleReturn where
  | ok (m : SingleMeta)
  | fail (error : String)
deriving DecidableEq, Repr

/-- The path of the shared processing log of single.py. -/
def logFileName : String := "processing_log.json"

/-- single.py `remove_background`. The whole body sits in a catch-all
try/except returning the failure dict, so the embedding is total; the
state returned on failure is the state at the point the exception was
raised. `now` stands for the strftime value of line 75. -/
def remove_background (now : String) (st : PBState) (input_path : String)
    (output_path? : Option String) (quality : Nat) (preserve_format : Bool) :
    SingleReturn × PBState :=
  if !st.fs.pathExists input_path then
    (SingleReturn.fail "Input file not found", st)
  else
    match st.makedirsExistOk "nobdg-images" with
    | Except.error e => (SingleReturn.fail e, st)
    | Except.ok st =>
      let output_name :=
        match output_path? with
        | none => pathStem input_path ++ "_nobgd.png"
        | some op => pathName op
      let output_path := pjoin "nobdg-images" output_name
      match imageOpen st.fs input_path with
      | Except.error e => (SingleReturn.fail e, st)
      | Except.ok input_image =>
        let image_size := (input_image.width, input_image.height)
        let output_image := removeBg input_image
        let saveResult : Except String PBState :=
          if preserve_format && endsWithAny (strLower input_path) [".jpg", ".jpeg"] then
            match compositeWhite output_image with
            | Except.error e => Except.error e
            | Except.ok rgb_image =>
                st.write "nobdg-images" output_name (FData.img rgb_image true)
          else
            st.write "nobdg-images" output_name (FData.img output_image true)
        match saveResult with
        | Except.error e => (SingleReturn.fail e, st)
        | Except.ok st =>
          let metadata : SingleMeta :=
            { timestamp := now, input_file := input_path,
              output_file := output_path, output_folder := "nobdg-images",
              image_size := image_size, output_quality := quality,
              preserve_format := preserve_format, success := true }
          let logRead : Except String ProcLog :=
            match st.fs.lookup (pjoin "nobdg-images" logFileName) with
            | some (Node.file (FData.log l)) =>
                Except.ok { l with
                  processed_images := some (l.processed_images.getD [] ++ [metadata]),
                  last_updated := some metadata.timestamp }
            | some (Node.file _) =>
                Except.error "json.decoder.JSONDecodeError"
            | some (Node.dir _) =>
                Except.error ("IsADirectoryError: " ++ pjoin "nobdg-images" logFileName)
            | none =>
                Except.ok { output_folder := some "nobdg-images",
                            created := some metadata.timestamp,
                            last_updated := some metadata.timestamp,
                            processed_images := some [metadata] }
          match logRead with
          | Except.error e => (SingleReturn.fail e, st)
          | Except.ok existing_log =>
            match st.write "nobdg-images" logFileName (FData.log existing_log) with
            | Except.error e => (SingleReturn.fail e, st)
            | Except.ok st => (SingleReturn.ok metadata, st)

/-- Recognises the write of the batch summary in the event trace. -/
def isMetaWrite : Event → Bool
  | Event.write _ (FData.batchMeta _) => true
  | _ => false

/-- First component of a `process_batch` result, for stating concrete runs. -/
def runReturn (e : Except String (BatchReturn × PBState)) : BatchReturn :=
  match e with
  | Except.ok (r, _) => r
  | Except.error _ => { success := false }

/-- Final state of a `process_batch` result, for stating concrete runs. -/
def runState (e : Except String (BatchReturn × PBState)) : PBState :=
  match e with
  | Except.ok (_, s) => s
  | Except.error _ => ⟨⟨[]⟩, []⟩

/-- Sample state: a directory `inp` holding two readable images and a
text file. -/
def sampleBatchSt : PBState :=
  ⟨⟨[("inp", Node.dir ["a.png", "b.JPG", "notes.txt"]),
     ("inp/a.png", Node.file (FData.img ⟨2, 3, Mode.RGB, false⟩ true)),
     ("inp/b.JPG", Node.file (FData.img ⟨4, 5, Mode.RGB, false⟩ true))]⟩, []⟩

/-- Sample state: a directory `inp` whose only matching entry is not a
readable image, so every file of the batch fails. -/
def sampleFailSt : PBState :=
  ⟨⟨[("inp", Node.dir ["bad.png"]),
     ("inp/bad.png", Node.file FData.blob)]⟩, []⟩

/-- Sample state: a regular file where `process_batch` expects a folder. -/
def fileAsFolderSt : PBState :=
  ⟨⟨[("somefile.txt", Node.file FData.blob)]⟩, []⟩

/-- Sample state: one readable JPEG image. -/
def sampleJpegSt : PBState :=
  ⟨⟨[("photo.JPG", Node.file (FData.img ⟨2, 3, Mode.RGB, false⟩ true))]⟩, []⟩

/-- Sample state: an output directory plus a readable JPEG under `inp`. -/
def sampleJpegBatchSt : PBState :=
  ⟨⟨[("out", Node.dir []),
     ("inp/b.JPG", Node.file (FData.img ⟨4, 5, Mode.RGB, false⟩ true))]⟩, []⟩

/-- Sample state: one readable PNG image. -/
def samplePngSt : PBState :=
  ⟨⟨[("a.png", Node.file (FData.img ⟨1, 1, Mode.RGB, false⟩ true))]⟩, []⟩

/-- The metadata record of the first sample run on `samplePngSt`. -/
def sampleMeta1 : SingleMeta :=
  { timestamp := "T1", input_file := "a.png",
    output_file := "nobdg-images/a_nobgd.png", output_folder := "nobdg-images",
    image_size := (1, 1), output_quality := 95, preserve_format := false,
    success := true }

/-- The metadata record of the second sample run on `samplePngSt`. -/
def sampleMeta2 : SingleMeta :=
  { timestamp := "T2", input_file := "a.png",
    output_file := "nobdg-images/a_nobgd.png", output_folder := "nobdg-images",
    image_size := (1, 1), output_quality := 90, preserve_format := false,
    success := true }

/-- The log left behind by the first sample run. -/
def sampleLog1 : ProcLog :=
  { output_folder := some "nobdg-images", created := some "T1",
    last_updated := some "T1", processed_images := some [sampleMeta1] }

/-- The metadata record of the sample JPEG run with preserved format. -/
def sampleMeta7 : SingleMeta :=
  { timestamp := "T7", input_file := "photo.JPG",
    output_file := "nobdg-images/photo_nobgd.png",
    output_folder := "nobdg-images", image_size := (2, 3),
    output_quality := 95, preserve_format := true, success := true }

/-- Final state of a `processOne` result, for stating concrete runs. -/
def poState (e : Except String (PBState × String)) : PBState :=
  match e with
  | Except.ok (s, _) => s
  | Except.error _ => ⟨⟨[]⟩, []⟩

/-! ### Basic lemmas about the filesystem model -/

theorem lookup_setNode (fs : FS) (p q : String) (n : Node) :
    (fs.setNode p n).lookup q = if p = q then some n else fs.lookup q := rfl

theorem pjoin_ne_left (d name : String) : pjoin d name ≠ d := by
  intro h
  have hlen := congrArg String.length h
  simp [pjoin, String.length_append] at hlen
  have hone : ("/" : String).length = 1 := rfl
  rw [hone] at hlen
  omega

theorem pjoin_right_inj {d a b : String} (h : pjoin d a = pjoin d b) : a = b := by
  have hd := congrArg String.data h
  simp [pjoin, String.data_append] at hd
  exact congrArg String.mk hd

theorem mkdir_lookup (st : PBState) (p q : String) :
    (st.mkdir p).fs.lookup q
      = if p = q then some (Node.dir []) else st.fs.lookup q := rfl

theorem mkdir_events (st : PBState) (p : String) :
    (st.mkdir p).events = st.events ++ [Event.mkdir p] := rfl

/-- Elimination for a successful write at the filesystem level. -/
theorem writeFile_ok_elim {fs : FS} {d name : String} {data : FData}
    {fs' : FS} (h : fs.writeFile d name data = Except.ok fs') :
    (∃ ch, fs.lookup d = some (Node.dir ch))
    ∧ fs'.lookup (pjoin d name) = some (Node.file data)
    ∧ (∀ p, p ≠ d → p ≠ pjoin d name → fs'.lookup p = fs.lookup p)
    ∧ (∃ ch, fs'.lookup d = some (Node.dir ch)) := by
  unfold FS.writeFile at h
  split at h
  · exact absurd h (by simp)
  · split at h
    next ch hd =>
      split at h
      · exact absurd h (by simp)
      next hnotdir =>
        cases h
        refine ⟨⟨ch, hd⟩, ?_, ?_, ?_⟩
        · rw [lookup_setNode, if_pos rfl]
        · intro p hp1 hp2
          rw [lookup_setNode, if_neg (fun hh => hp2 hh.symm),
            lookup_setNode, if_neg (fun hh => hp1 hh.symm)]
        · refine ⟨if name ∈ ch then ch else ch ++ [name], ?_⟩
          rw [lookup_setNode, if_neg (pjoin_ne_left d name),
            lookup_setNode, if_pos rfl]
    next hd => exact absurd h (by simp)
    next hd => exact absurd h (by simp)

/-- Elimination for a successful file write: the target directory existed,
the written file is now present, every other path is untouched, the target
directory is still a directory, and exactly one write event was appended. -/
theorem write_ok_elim {st : PBState} {d name : String} {data : FData}
    {st' : PBState} (h : st.write d name data = Except.ok st') :
    (∃ ch, st.fs.lookup d = some (Node.dir ch))
    ∧ st'.fs.lookup (pjoin d name) = some (Node.file data)
    ∧ (∀ p, p ≠ d → p ≠ pjoin d name → st'.fs.lookup p = st.fs.lookup p)
    ∧ (∃ ch, st'.fs.lookup d = some (Node.dir ch))
    ∧ st'.events = st.events ++ [Event.write (pjoin d name) data] := by
  unfold PBState.write at h
  split at h
  next fs' heq =>
    cases h
    obtain ⟨h1, h2, h3, h4⟩ := writeFile_ok_elim heq
    exact ⟨h1, h2, h3, h4, rfl⟩
  next e heq => exact absurd h (by simp)

/-- Introduction for a successful file write. -/
theorem write_ok_intro {st : PBState} (d name : String) (data : FData)
    {ch : List String} (hd : st.fs.lookup d = some (Node.dir ch))
    (ht : st.fs.isDirAt (pjoin d name) = false)
    (h1 : name ≠ "") (h2 : name ≠ ".") (h3 : name ≠ "..") :
    ∃ st', st.write d name data = Except.ok st' := by
  unfold PBState.write FS.writeFile
  rw [if_neg (by simp [h1, h2, h3]), hd]
  cases hx : st.fs.lookup (pjoin d name) with
  | none => simp
  | some n =>
    cases n with
    | dir ch2 => simp [FS.isDirAt, hx] at ht
    | file fd => simp

/-- A write never turns a non-directory path into a directory. -/
theorem write_ok_isDirAt_false {st : PBState} {d name : String} {data : FData}
    {st' : PBState} (h : st.write d name data = Except.ok st')
    (p : String) (hp : p ≠ d) (hfalse : st.fs.isDirAt p = false) :
    st'.fs.isDirAt p = false := by
  obtain ⟨_, hself, hother, _, _⟩ := write_ok_elim h
  by_cases hpj : p = pjoin d name
  · subst hpj
    simp [FS.isDirAt, hself]
  · unfold FS.isDirAt at hfalse ⊢
    rw [hother p hp hpj]
    exact hfalse

/-! ### Lemmas about the batch loop -/

/-- Every successful iteration of the loop body ends in a successful write
of the output file into the output folder. -/
theorem processOne_ok_state {st : PBState} {inf outf fn : String} {pf : Bool}
    {q : Nat} {st' : PBState} {o : String}
    (h : processOne st inf outf fn pf q = Except.ok (st', o)) :
    ∃ data, st.write outf o data = Except.ok st' := by
  unfold processOne at h
  split at h
  · exact absurd h (by simp)
  · split at h
    · dsimp only at h
      split at h
      · exact absurd h (by simp)
      · split at h
        · exact absurd h (by simp)
        next hw =>
          obtain ⟨h1, h2⟩ := by simpa using h
          subst h1; subst h2
          exact ⟨_, hw⟩
    · dsimp only at h
      split at h
      · exact absurd h (by simp)
      next hw =>
        obtain ⟨h1, h2⟩ := by simpa using h
        subst h1; subst h2
        exact ⟨_, hw⟩

/-- On success the loop body appends exactly one image-write event. -/
theorem processOne_ok_events {st : PBState} {inf outf fn : String} {pf : Bool}
    {q : Nat} {st' : PBState} {o : String}
    (h : processOne st inf outf fn pf q = Except.ok (st', o)) :
    ∃ i b, st'.events = st.events ++ [Event.write (pjoin outf o) (FData.img i b)] := by
  unfold processOne at h
  split at h
  · exact absurd h (by simp)
  · split at h
    · dsimp only at h
      split at h
      · exact absurd h (by simp)
      · split at h
        · exact absurd h (by simp)
        next hw =>
          obtain ⟨h1, h2⟩ := by simpa using h
          subst h1; subst h2
          obtain ⟨_, _, _, _, hev⟩ := write_ok_elim hw
          exact ⟨_, _, hev⟩
    · dsimp only at h
      split at h
      · exact absurd h (by simp)
      next hw =>
        obtain ⟨h1, h2⟩ := by simpa using h
        subst h1; subst h2
        obtain ⟨_, _, _, _, hev⟩ := write_ok_elim hw
        exact ⟨_, _, hev⟩

/-- The loop invariant of multi.py lines 57-93: the success counter grows
with the processed list, the failure counter grows with the failed list,
and together they advance once per file. -/
theorem batchLoop_counts (inf outf : String) (pf : Bool) (q : Nat) :
    ∀ (files : List String) (st : PBState) (s f : Nat)
      (ps fl : List (String × String)),
    (batchLoop inf outf pf q st files s f ps fl).2.1 + ps.length
        = s + (batchLoop inf outf pf q st files s f ps fl).2.2.2.1.length
    ∧ (batchLoop inf outf pf q st files s f ps fl).2.2.1 + fl.length
        = f + (batchLoop inf outf pf q st files s f ps fl).2.2.2.2.length
    ∧ (batchLoop inf outf pf q st files s f ps fl).2.1
        + (batchLoop inf outf pf q st files s f ps fl).2.2.1
        = s + f + files.length := by
  intro files
  induction files with
  | nil => intro st s f ps fl; simp [batchLoop]
  | cons fn rest ih =>
    intro st s f ps fl
    simp only [batchLoop]
    cases hpo : processOne st inf outf fn pf q with
    | ok r =>
      obtain ⟨st', o⟩ := r
      obtain ⟨ih1, ih2, ih3⟩ := ih st' (s + 1) f (ps ++ [(fn, o)]) fl
      simp only [List.length_append, List.length_cons, List.length_nil] at *
      constructor
      · omega
      constructor
      · omega
      · omega
    | error e =>
      obtain ⟨ih1, ih2, ih3⟩ := ih st s (f + 1) ps (fl ++ [(fn, e)])
      simp only [List.length_append, List.length_cons, List.length_nil] at *
      constructor
      · omega
      constructor
      · omega
      · omega

/-- The loop keeps the output folder a directory and never turns another
non-directory path into a directory. -/
theorem batchLoop_fs_inv (inf outf : String) (pf : Bool) (q : Nat)
    (p : String) (hp : p ≠ outf) :
    ∀ (files : List String) (st : PBState) (s f : Nat)
      (ps fl : List (String × String)),
    (∃ ch, st.fs.lookup outf = some (Node.dir ch)) →
    st.fs.isDirAt p = false →
    (∃ ch, ((batchLoop inf outf pf q st files s f ps fl).1).fs.lookup outf
        = some (Node.dir ch))
    ∧ ((batchLoop inf outf pf q st files s f ps fl).1).fs.isDirAt p = false := by
  intro files
  induction files with
  | nil => intro st s f ps fl hdir hnd; simpa [batchLoop] using ⟨hdir, hnd⟩
  | cons fn rest ih =>
    intro st s f ps fl hdir hnd
    simp only [batchLoop]
    cases hpo : processOne st inf outf fn pf q with
    | ok r =>
      obtain ⟨st', o⟩ := r
      obtain ⟨data, hw⟩ := processOne_ok_state hpo
      obtain ⟨_, _, _, hdir', _⟩ := write_ok_elim hw
      exact ih st' (s + 1) f (ps ++ [(fn, o)]) fl hdir'
        (write_ok_isDirAt_false hw p hp hnd)
    | error e =>
      exact ih st s (f + 1) ps (fl ++ [(fn, e)]) hdir hnd

/-- The loop writes only image files: it adds no batch-summary write to
the event trace. -/
theorem batchLoop_events (inf outf : String) (pf : Bool) (q : Nat) :
    ∀ (files : List String) (st : PBState) (s f : Nat)
      (ps fl : List (String × String)),
    ((batchLoop inf outf pf q st files s f ps fl).1).events.filter isMetaWrite
      = st.events.filter isMetaWrite := by
  intro files
  induction files with
  | nil => intro st s f ps fl; simp [batchLoop]
  | cons fn rest ih =>
    intro st s f ps fl
    simp only [batchLoop]
    cases hpo : processOne st inf outf fn pf q with
    | ok r =>
      obtain ⟨st', o⟩ := r
      obtain ⟨i, b, hev⟩ := processOne_ok_events hpo
      rw [ih st' (s + 1) f (ps ++ [(fn, o)]) fl, hev, List.filter_append]
      simp [isMetaWrite]
    | error e =>
      exact ih st s (f + 1) ps (fl ++ [(fn, e)])

/-! ### Lemmas about the single-image processor -/

theorem makedirsExistOk_lookup {st : PBState} {p : String} {st' : PBState}
    (h : st.makedirsExistOk p = Except.ok st') (q : String) (hq : q ≠ p) :
    st'.fs.lookup q = st.fs.lookup q := by
  unfold PBState.makedirsExistOk at h
  split at h
  · cases h; rfl
  · exact absurd h (by simp)
  · cases h
    rw [mkdir_lookup, if_neg (fun hh => hq hh.symm)]

/-- Every successful `remove_background` run leaves the shared log file in
place with the new record appended as its last entry and `last_updated`
set to the run's timestamp; moreover the entries in front of it are
exactly the ones the pre-existing log carried (none if no log existed). -/
theorem rb_ok_log {now : String} {st : PBState} {input_path : String}
    {output_path? : Option String} {quality : Nat} {preserve_format : Bool}
    {m : SingleMeta} {st' : PBState}
    (h : remove_background now st input_path output_path? quality preserve_format
        = (SingleReturn.ok m, st')) :
    ∃ l xs, st'.fs.lookup (pjoin "nobdg-images" logFileName)
        = some (Node.file (FData.log l))
      ∧ l.processed_images = some (xs ++ [m])
      ∧ l.last_updated = some m.timestamp
      ∧ (∀ l0, st.fs.lookup (pjoin "nobdg-images" logFileName)
            = some (Node.file (FData.log l0)) → xs = l0.processed_images.getD [])
      ∧ (st.fs.lookup (pjoin "nobdg-images" logFileName) = none → xs = []) := by
  unfold remove_background at h
  split at h
  · exact absurd h (by simp)
  next hex =>
    split at h
    · exact absurd h (by simp)
    next st1 hmk =>
      dsimp only at h
      generalize hN : (match output_path? with
        | none => pathStem input_path ++ "_nobgd.png"
        | some op => pathName op) = N at h
      split at h
      · exact absurd h (by simp)
      next img hopen =>
        split at h
        · exact absurd h (by simp)
        next st2 hsave =>
          have hwimg : ∃ i, st1.write "nobdg-images" N (FData.img i true)
              = Except.ok st2 := by
            split at hsave
            · split at hsave
              · exact absurd hsave (by simp)
              · exact ⟨_, hsave⟩
            · exact ⟨_, hsave⟩
          obtain ⟨i0, hwimg⟩ := hwimg
          obtain ⟨_, hself2, hother2, _, _⟩ := write_ok_elim hwimg
          split at h
          · exact absurd h (by simp)
          next elog hlog =>
            split at h
            · exact absurd h (by simp)
            next st3 hw =>
              obtain ⟨h1, h2⟩ := by simpa using h
              subst h1
              subst h2
              obtain ⟨_, hself, _, _, _⟩ := write_ok_elim hw
              by_cases hNlog : N = logFileName
              · rw [hNlog] at hself2
                split at hlog
                next l0 heq2 => rw [heq2] at hself2; simp at hself2
                · exact absurd hlog (by simp)
                · exact absurd hlog (by simp)
                next heq2 => rw [heq2] at hself2; simp at hself2
              · have hchain : st2.fs.lookup (pjoin "nobdg-images" logFileName)
                    = st.fs.lookup (pjoin "nobdg-images" logFileName) := by
                  rw [hother2 (pjoin "nobdg-images" logFileName)
                    (pjoin_ne_left _ _)
                    (fun hc => hNlog (pjoin_right_inj hc).symm)]
                  exact makedirsExistOk_lookup hmk _ (pjoin_ne_left _ _)
                split at hlog
                next l0 heq2 =>
                  cases hlog
                  rw [heq2] at hchain
                  refine ⟨_, l0.processed_images.getD [], hself, rfl, rfl, ?_, ?_⟩
                  · intro l0' h0
                    rw [h0] at hchain
                    obtain rfl : l0 = l0' := by simpa using hchain
                    rfl
                  · intro h0
                    rw [h0] at hchain
                    simp at hchain
                · exact absurd hlog (by simp)
                · exact absurd hlog (by simp)
                next heq2 =>
                  cases hlog
                  rw [heq2] at hchain
                  refine ⟨_, [], hself, by simp, rfl, ?_, fun _ => rfl⟩
                  intro l0 h0
                  rw [h0] at hchain
                  simp at hchain

/-! ### Claim theorems -/

/-- C3: for every input-folder path that does not exist, `process_batch`
returns the structured failure dict (success `false`) and leaves the state
untouched, so in particular no output directory is created. -/
theorem c3_missing_input_folder (now nowMeta : String) (st : PBState)
    (input_folder : String) (output_folder? : Option String)
    (preserve_format : Bool) (quality : Nat)
    (h : st.fs.pathExists input_folder = false) :
    process_batch now nowMeta st input_folder output_folder? preserve_format quality
      = Except.ok ({ success := false, error := some "Input folder not found",
                     run_folder := none }, st) := by
  simp [process_batch, h]

theorem c3_missing_input_folder_witness :
    (⟨⟨[]⟩, []⟩ : PBState).fs.pathExists "missing" = false
    ∧ process_batch "T" "T" ⟨⟨[]⟩, []⟩ "missing" none false 95
      = Except.ok ({ success := false, error := some "Input folder not found",
                     run_folder := none }, ⟨⟨[]⟩, []⟩) :=
  ⟨rfl, c3_missing_input_folder "T" "T" ⟨⟨[]⟩, []⟩ "missing" none false 95 rfl⟩

/-- C6: for every input path that does not exist, `remove_background`
returns the structured failure dict (success `false`, with an error
message) instead of raising; the state is untouched. -/
theorem c6_missing_input_file (now : String) (st : PBState) (input_path : String)
    (output_path? : Option String) (quality : Nat) (preserve_format : Bool)
    (h : st.fs.pathExists input_path = false) :
    remove_background now st input_path output_path? quality preserve_format
      = (SingleReturn.fail "Input file not found", st) := by
  simp [remove_background, h]

theorem c6_missing_input_file_witness :
    (⟨⟨[]⟩, []⟩ : PBState).fs.pathExists "ghost.png" = false
    ∧ remove_background "T" ⟨⟨[]⟩, []⟩ "ghost.png" none 95 false
      = (SingleReturn.fail "Input file not found", ⟨⟨[]⟩, []⟩) :=
  ⟨rfl, c6_missing_input_file "T" ⟨⟨[]⟩, []⟩ "ghost.png" none 95 false rfl⟩

/-- C9: `process_batch` selects exactly the directory entries whose
lowercased name ends with one of `.png`, `.jpg`, `.jpeg`, `.bmp`,
`.webp`; every other entry is excluded from processing. -/
theorem c9_supported_extension_filter (names : List String) (f : String) :
    f ∈ selectFiles names
      ↔ f ∈ names ∧ (strEndsWith (strLower f) ".png" = true
          ∨ strEndsWith (strLower f) ".jpg" = true
          ∨ strEndsWith (strLower f) ".jpeg" = true
          ∨ strEndsWith (strLower f) ".bmp" = true
          ∨ strEndsWith (strLower f) ".webp" = true) := by
  simp [selectFiles, SUPPORTED_FORMATS, endsWithAny, List.mem_filter]

theorem c9_supported_extension_filter_witness :
    "a.PNG" ∈ selectFiles ["a.PNG", "b.txt"] ∧ "b.txt" ∉ selectFiles ["a.PNG", "b.txt"] :=
  ⟨(c9_supported_extension_filter ["a.PNG", "b.txt"] "a.PNG").mpr
      (by refine ⟨by simp, Or.inl ?_⟩; rfl),
    fun hmem => by
      have := (c9_supported_extension_filter ["a.PNG", "b.txt"] "b.txt").mp hmem
      revert this
      decide⟩

/-- The no-matching-files exit of `process_batch` (multi.py lines 53-55),
shared by the C4 and C5 theorems. -/
theorem c4_aux (now nowMeta : String) (st : PBState)
    (input_folder output_folder : String) (preserve_format : Bool)
    (quality : Nat) (ns : List String)
    (hdir : st.fs.lookup input_folder = some (Node.dir ns))
    (hsel : selectFiles ns = [])
    (hout : st.fs.lookup output_folder = none
        ∨ ∃ ch, st.fs.lookup output_folder = some (Node.dir ch)) :
    ∃ st', process_batch now nowMeta st input_folder (some output_folder)
        preserve_format quality
      = Except.ok ({ success := false, error := some "No image files found",
                     run_folder := some output_folder, processed := some 0,
                     failed := some 0 }, st')
      ∧ st'.fs.isDirAt output_folder = true := by
  have hex : st.fs.pathExists input_folder = true := by
    simp [FS.pathExists, hdir]
  rcases hout with hnone | ⟨ch, hch⟩
  · have hofex : st.fs.pathExists output_folder = false := by
      simp [FS.pathExists, hnone]
    have hne : output_folder ≠ input_folder := by
      intro hh; rw [hh, hdir] at hnone; cases hnone
    have hlist : (st.mkdir output_folder).fs.listdir input_folder
        = Except.ok ns := by
      unfold FS.listdir
      rw [mkdir_lookup, if_neg hne, hdir]
    refine ⟨st.mkdir output_folder, ?_, ?_⟩
    · simp [process_batch, hex, hofex, hlist, hsel]
    · simp [FS.isDirAt, mkdir_lookup]
  · have hofex : st.fs.pathExists output_folder = true := by
      simp [FS.pathExists, hch]
    have hlist : st.fs.listdir input_folder = Except.ok ns := by
      unfold FS.listdir
      rw [hdir]
    refine ⟨st, ?_, ?_⟩
    · simp [process_batch, hex, hofex, hlist, hsel]
    · simp [FS.isDirAt, hch]

/-- C4: for every existing input directory with no supported-extension
entries, `process_batch` returns the failure dict with `processed = 0` and
`failed = 0` that still reports the output folder, and that folder is a
directory of the final state (it was created beforehand if absent). -/
theorem c4_no_matching_files (now nowMeta : String) (st : PBState)
    (input_folder output_folder : String) (preserve_format : Bool)
    (quality : Nat) (ns : List String)
    (hdir : st.fs.lookup input_folder = some (Node.dir ns))
    (hsel : selectFiles ns = [])
    (hout : st.fs.lookup output_folder = none
        ∨ ∃ ch, st.fs.lookup output_folder = some (Node.dir ch)) :
    ∃ st', process_batch now nowMeta st input_folder (some output_folder)
        preserve_format quality
      = Except.ok ({ success := false, error := some "No image files found",
                     run_folder := some output_folder, processed := some 0,
                     failed := some 0 }, st')
      ∧ st'.fs.isDirAt output_folder = true :=
  c4_aux now nowMeta st input_folder output_folder preserve_format quality ns
    hdir hsel hout

theorem c4_no_matching_files_witness :
    (⟨⟨[("inp", Node.dir ["x.txt"])]⟩, []⟩ : PBState).fs.lookup "inp"
        = some (Node.dir ["x.txt"])
    ∧ selectFiles ["x.txt"] = []
    ∧ ∃ st', process_batch "T0" "T1" ⟨⟨[("inp", Node.dir ["x.txt"])]⟩, []⟩
        "inp" (some "out") false 95
      = Except.ok ({ success := false, error := some "No image files found",
                     run_folder := some "out", processed := some 0,
                     failed := some 0 }, st')
      ∧ st'.fs.isDirAt "out" = true :=
  ⟨rfl, rfl,
    c4_no_matching_files "T0" "T1" ⟨⟨[("inp", Node.dir ["x.txt"])]⟩, []⟩
      "inp" "out" false 95 ["x.txt"] rfl rfl (Or.inl rfl)⟩

/-- C1: whenever `process_batch` runs its loop over an existing input
directory with at least one matching file (and returns at all), the
reported success count equals the length of `processed_files`, the failure
count equals the length of `failed_files`, and the two add up to the
number of matching files found in the directory. -/
theorem c1_batch_counts (now nowMeta : String) (st : PBState)
    (input_folder : String) (output_folder? : Option String)
    (preserve_format : Bool) (quality : Nat) (ns : List String)
    (r : BatchReturn) (st' : PBState)
    (hdir : st.fs.lookup input_folder = some (Node.dir ns))
    (hne : selectFiles ns ≠ [])
    (hrun : process_batch now nowMeta st input_folder output_folder?
        preserve_format quality = Except.ok (r, st')) :
    ∃ s f ps fl,
      r.total_processed = some s ∧ r.total_failed = some f
      ∧ r.processed_files = some ps ∧ r.failed_files = some fl
      ∧ s = ps.length ∧ f = fl.length
      ∧ s + f = (selectFiles ns).length
      ∧ r.total_images = some (selectFiles ns).length := by
  have hex : st.fs.pathExists input_folder = true := by
    simp [FS.pathExists, hdir]
  unfold process_batch at hrun
  rw [hex] at hrun
  simp only [Bool.not_true, Bool.false_eq_true, if_false] at hrun
  obtain ⟨st1, hst1, hlist⟩ : ∃ st1,
      (if st.fs.pathExists (output_folder?.getD ("batch_" ++ now)) then st
        else st.mkdir (output_folder?.getD ("batch_" ++ now))) = st1
      ∧ st1.fs.listdir input_folder = Except.ok ns := by
    by_cases hofe : st.fs.pathExists (output_folder?.getD ("batch_" ++ now))
    · refine ⟨st, by rw [if_pos hofe], ?_⟩
      unfold FS.listdir
      rw [hdir]
    · refine ⟨st.mkdir _, by rw [if_neg hofe], ?_⟩
      have hne2 : output_folder?.getD ("batch_" ++ now) ≠ input_folder := by
        intro hh
        rw [hh] at hofe
        simp [FS.pathExists, hdir] at hofe
      unfold FS.listdir
      rw [mkdir_lookup, if_neg hne2, hdir]
  rw [hst1, hlist] at hrun
  have hie : (selectFiles ns).isEmpty = false := by
    cases hsf : selectFiles ns with
    | nil => exact absurd hsf hne
    | cons a l => rfl
  dsimp only at hrun
  rw [hie] at hrun
  simp only [Bool.false_eq_true, if_false] at hrun
  split at hrun
  · exact absurd hrun (by simp)
  next st2 hw =>
    obtain ⟨h1, h2⟩ := by simpa using hrun
    subst h1
    obtain ⟨hc1, hc2, hc3⟩ := batchLoop_counts input_folder
      (output_folder?.getD ("batch_" ++ now)) preserve_format quality
      (selectFiles ns) st1 0 0 [] []
    simp only [List.length_nil, Nat.add_zero, Nat.zero_add] at hc1 hc2 hc3
    refine ⟨_, _, _, _, rfl, rfl, rfl, rfl, hc1, hc2, by dsimp only; omega, rfl⟩

theorem c1_batch_counts_witness :
    sampleBatchSt.fs.lookup "inp" = some (Node.dir ["a.png", "b.JPG", "notes.txt"])
    ∧ selectFiles ["a.png", "b.JPG", "notes.txt"] ≠ []
    ∧ ∃ s f ps fl,
      (runReturn (process_batch "T0" "T1" sampleBatchSt "inp" (some "out")
          true 95)).total_processed = some s
      ∧ (runReturn (process_batch "T0" "T1" sampleBatchSt "inp" (some "out")
          true 95)).total_failed = some f
      ∧ (runReturn (process_batch "T0" "T1" sampleBatchSt "inp" (some "out")
          true 95)).processed_files = some ps
      ∧ (runReturn (process_batch "T0" "T1" sampleBatchSt "inp" (some "out")
          true 95)).failed_files = some fl
      ∧ s = ps.length ∧ f = fl.length
      ∧ s + f = (selectFiles ["a.png", "b.JPG", "notes.txt"]).length
      ∧ (runReturn (process_batch "T0" "T1" sampleBatchSt "inp" (some "out")
          true 95)).total_images
        = some (selectFiles ["a.png", "b.JPG", "notes.txt"]).length :=
  ⟨rfl, by decide,
    c1_batch_counts "T0" "T1" sampleBatchSt "inp" (some "out") true 95
      ["a.png", "b.JPG", "notes.txt"]
      (runReturn (process_batch "T0" "T1" sampleBatchSt "inp" (some "out") true 95))
      (runState (process_batch "T0" "T1" sampleBatchSt "inp" (some "out") true 95))
      rfl (by decide) rfl⟩

/-- Reachability of the batch summary: over an existing input directory
with matching files, and an output-folder path that is absent or a
directory whose `batch_metadata.json` slot is not occupied by a directory,
`process_batch` completes with the summary as return value, appends
exactly one summary-write event, and sets the summary's success flag to
"failed count is zero". -/
theorem pb_ok_run (now nowMeta : String) (st : PBState)
    (input_folder output_folder : String) (preserve_format : Bool)
    (quality : Nat) (ns : List String)
    (hdir : st.fs.lookup input_folder = some (Node.dir ns))
    (hne : selectFiles ns ≠ [])
    (hout : st.fs.lookup output_folder = none
        ∨ ∃ ch, st.fs.lookup output_folder = some (Node.dir ch))
    (hmeta : st.fs.isDirAt (pjoin output_folder "batch_metadata.json") = false) :
    ∃ meta st', process_batch now nowMeta st input_folder (some output_folder)
        preserve_format quality = Except.ok (BatchMeta.toReturn meta, st')
      ∧ st'.events.filter isMetaWrite
        = st.events.filter isMetaWrite
          ++ [Event.write (pjoin output_folder "batch_metadata.json")
            (FData.batchMeta meta)]
      ∧ (meta.success = true ↔ meta.total_failed = 0) := by
  have hex : st.fs.pathExists input_folder = true := by
    simp [FS.pathExists, hdir]
  have hie : (selectFiles ns).isEmpty = false := by
    cases hsf : selectFiles ns with
    | nil => exact absurd hsf hne
    | cons a l => rfl
  obtain ⟨st1, hst1eq, hlist, hch1, hmeta1, hev1⟩ : ∃ st1,
      (if st.fs.pathExists output_folder then st else st.mkdir output_folder) = st1
      ∧ st1.fs.listdir input_folder = Except.ok ns
      ∧ (∃ ch, st1.fs.lookup output_folder = some (Node.dir ch))
      ∧ st1.fs.isDirAt (pjoin output_folder "batch_metadata.json") = false
      ∧ st1.events.filter isMetaWrite = st.events.filter isMetaWrite := by
    rcases hout with hnone | ⟨ch, hch⟩
    · have hofe : st.fs.pathExists output_folder = false := by
        simp [FS.pathExists, hnone]
      have hne2 : output_folder ≠ input_folder := by
        intro hh
        rw [hh, hdir] at hnone
        cases hnone
      refine ⟨st.mkdir output_folder, by rw [hofe]; simp, ?_, ?_, ?_, ?_⟩
      · unfold FS.listdir
        rw [mkdir_lookup, if_neg hne2, hdir]
      · exact ⟨[], by rw [mkdir_lookup, if_pos rfl]⟩
      · unfold FS.isDirAt at hmeta ⊢
        rw [mkdir_lookup,
          if_neg (fun hh => pjoin_ne_left output_folder "batch_metadata.json" hh.symm)]
        exact hmeta
      · rw [mkdir_events, List.filter_append]
        simp [isMetaWrite]
    · have hofe : st.fs.pathExists output_folder = true := by
        simp [FS.pathExists, hch]
      refine ⟨st, by rw [hofe]; simp, ?_, ⟨ch, hch⟩, hmeta, rfl⟩
      unfold FS.listdir
      rw [hdir]
  obtain ⟨L, hLeq⟩ : ∃ L, batchLoop input_folder output_folder preserve_format
      quality st1 (selectFiles ns) 0 0 [] [] = L := ⟨_, rfl⟩
  have hinv := batchLoop_fs_inv input_folder output_folder preserve_format quality
    (pjoin output_folder "batch_metadata.json") (pjoin_ne_left _ _)
    (selectFiles ns) st1 0 0 [] [] hch1 hmeta1
  rw [hLeq] at hinv
  obtain ⟨⟨chL, hdirL⟩, hmetaL⟩ := hinv
  have hevL := batchLoop_events input_folder output_folder preserve_format quality
    (selectFiles ns) st1 0 0 [] []
  rw [hLeq] at hevL
  obtain ⟨M, hMdef⟩ : ∃ M : BatchMeta, M =
      { timestamp := nowMeta, run_folder := output_folder,
        input_folder := input_folder, total_processed := L.2.1,
        total_failed := L.2.2.1, total_images := (selectFiles ns).length,
        preserve_format := preserve_format, output_quality := quality,
        processed_files := L.2.2.2.1, failed_files := L.2.2.2.2,
        success := L.2.2.1 == 0 } := ⟨_, rfl⟩
  obtain ⟨st2, hw⟩ := write_ok_intro output_folder "batch_metadata.json"
    (FData.batchMeta M) hdirL hmetaL (by decide) (by decide) (by decide)
  obtain ⟨_, _, _, _, hev2⟩ := write_ok_elim hw
  refine ⟨M, st2, ?_, ?_, ?_⟩
  · unfold process_batch
    rw [hex]
    simp only [Bool.not_true, Bool.false_eq_true, if_false, Option.getD_some]
    rw [hst1eq, hlist]
    dsimp only
    rw [hie]
    simp only [Bool.false_eq_true, if_false]
    rw [hLeq, ← hMdef, hw]
  · rw [hev2, List.filter_append, hevL, hev1]
    rfl
  · rw [hMdef]
    simp

/-- C2: over an existing input directory with at least one matching file,
`process_batch` returns normally and its event trace contains exactly one
batch-summary write — the summary written after the loop — no matter how
many files failed; the summary's success flag is true exactly when the
failed count is zero. -/
theorem c2_single_summary (now nowMeta : String) (st : PBState)
    (input_folder output_folder : String) (preserve_format : Bool)
    (quality : Nat) (ns : List String)
    (hdir : st.fs.lookup input_folder = some (Node.dir ns))
    (hne : selectFiles ns ≠ [])
    (hout : st.fs.lookup output_folder = none
        ∨ ∃ ch, st.fs.lookup output_folder = some (Node.dir ch))
    (hmeta : st.fs.isDirAt (pjoin output_folder "batch_metadata.json") = false)
    (hev : st.events = []) :
    ∃ meta st', process_batch now nowMeta st input_folder (some output_folder)
        preserve_format quality = Except.ok (BatchMeta.toReturn meta, st')
      ∧ st'.events.filter isMetaWrite
        = [Event.write (pjoin output_folder "batch_metadata.json")
            (FData.batchMeta meta)]
      ∧ (meta.success = true ↔ meta.total_failed = 0) := by
  obtain ⟨meta, st', h1, h2, h3⟩ := pb_ok_run now nowMeta st input_folder
    output_folder preserve_format quality ns hdir hne hout hmeta
  rw [hev] at h2
  exact ⟨meta, st', h1, by simpa using h2, h3⟩

theorem c2_single_summary_witness :
    sampleFailSt.fs.lookup "inp" = some (Node.dir ["bad.png"])
    ∧ selectFiles ["bad.png"] ≠ []
    ∧ (sampleFailSt.fs.lookup "out" = none
        ∨ ∃ ch, sampleFailSt.fs.lookup "out" = some (Node.dir ch))
    ∧ sampleFailSt.fs.isDirAt (pjoin "out" "batch_metadata.json") = false
    ∧ sampleFailSt.events = []
    ∧ ∃ meta st', process_batch "T0" "T1" sampleFailSt "inp" (some "out") false 95
        = Except.ok (BatchMeta.toReturn meta, st')
      ∧ st'.events.filter isMetaWrite
        = [Event.write (pjoin "out" "batch_metadata.json") (FData.batchMeta meta)]
      ∧ (meta.success = true ↔ meta.total_failed = 0) :=
  ⟨rfl, by decide, Or.inl rfl, rfl, rfl,
    c2_single_summary "T0" "T1" sampleFailSt "inp" "out" false 95 ["bad.png"]
      rfl (by decide) (Or.inl rfl) rfl rfl⟩

/-- C5 counterexample: when the input-folder path names an existing
regular file, `os.path.exists` passes but `os.listdir` raises
`NotADirectoryError`; nothing in `process_batch` (multi.py lines 21-115)
or its `__main__` caller catches it, so the failure propagates as an
unhandled fault instead of being reported through a structured result. -/
theorem c5_unhandled_fault_counterexample :
    process_batch "T0" "T1" fileAsFolderSt "somefile.txt" (some "out") false 95
      = Except.error "NotADirectoryError: somefile.txt" := rfl

/-- C5 (amended): `remove_background`'s body is wrapped in a catch-all
try/except, so it always returns a structured result; `process_batch`
raises no exception provided the input path is an existing directory, the
output-folder path is absent or an existing directory, and no directory
occupies the `batch_metadata.json` slot — outside those conditions an
exception can escape it (see the counterexample). -/
theorem c5_no_unhandled_fault_amended (now nowMeta : String) (st : PBState)
    (input_folder output_folder : String) (preserve_format : Bool)
    (quality : Nat) (ns : List String)
    (hdir : st.fs.lookup input_folder = some (Node.dir ns))
    (hout : st.fs.lookup output_folder = none
        ∨ ∃ ch, st.fs.lookup output_folder = some (Node.dir ch))
    (hmeta : st.fs.isDirAt (pjoin output_folder "batch_metadata.json") = false) :
    (∃ r st', process_batch now nowMeta st input_folder (some output_folder)
        preserve_format quality = Except.ok (r, st'))
    ∧ ∀ (now2 : String) (st0 : PBState) (input_path : String)
        (output_path? : Option String) (quality2 : Nat) (preserve2 : Bool),
      ∃ r st', remove_background now2 st0 input_path output_path? quality2 preserve2
        = (r, st') := by
  constructor
  · by_cases hne : selectFiles ns = []
    · obtain ⟨st', hrun, _⟩ := c4_aux now nowMeta st input_folder output_folder
        preserve_format quality ns hdir hne hout
      exact ⟨_, st', hrun⟩
    · obtain ⟨meta, st', hrun, _, _⟩ := pb_ok_run now nowMeta st input_folder
        output_folder preserve_format quality ns hdir hne hout hmeta
      exact ⟨_, st', hrun⟩
  · intro now2 st0 input_path output_path? quality2 preserve2
    exact ⟨_, _, rfl⟩

theorem c5_no_unhandled_fault_amended_witness :
    sampleBatchSt.fs.lookup "inp" = some (Node.dir ["a.png", "b.JPG", "notes.txt"])
    ∧ (sampleBatchSt.fs.lookup "out" = none
        ∨ ∃ ch, sampleBatchSt.fs.lookup "out" = some (Node.dir ch))
    ∧ sampleBatchSt.fs.isDirAt (pjoin "out" "batch_metadata.json") = false
    ∧ ((∃ r st', process_batch "T0" "T1" sampleBatchSt "inp" (some "out") false 95
          = Except.ok (r, st'))
      ∧ ∀ (now2 : String) (st0 : PBState) (input_path : String)
          (output_path? : Option String) (quality2 : Nat) (preserve2 : Bool),
        ∃ r st', remove_background now2 st0 input_path output_path? quality2 preserve2
          = (r, st')) :=
  ⟨rfl, Or.inl rfl, rfl,
    c5_no_unhandled_fault_amended "T0" "T1" sampleBatchSt "inp" "out" false 95
      ["a.png", "b.JPG", "notes.txt"] rfl (Or.inl rfl) rfl⟩

/-! ### Path-name lemmas -/

theorem splitSlash_ne_nil (cs : List Char) : splitSlash cs ≠ [] := by
  cases cs with
  | nil => simp [splitSlash]
  | cons c rest =>
    simp only [splitSlash]
    split
    · simp
    · split <;> simp

theorem splitSlash_append (a b : List Char) :
    splitSlash (a ++ '/' :: b) = splitSlash a ++ splitSlash b := by
  induction a with
  | nil =>
    show splitSlash ('/' :: b) = splitSlash [] ++ splitSlash b
    simp [splitSlash]
  | cons c a' ih =>
    by_cases hc : c = '/'
    · subst hc
      have l1 : splitSlash ('/' :: (a' ++ '/' :: b))
          = [] :: splitSlash (a' ++ '/' :: b) := by simp [splitSlash]
      have l2 : splitSlash ('/' :: a') = [] :: splitSlash a' := by
        simp [splitSlash]
      rw [List.cons_append, l1, ih, l2, List.cons_append]
    · obtain ⟨h, t, hht⟩ : ∃ h t, splitSlash a' = h :: t := by
        cases hx : splitSlash a' with
        | nil => exact absurd hx (splitSlash_ne_nil a')
        | cons h t => exact ⟨h, t, rfl⟩
      have l1 : splitSlash (c :: (a' ++ '/' :: b))
          = (c :: h) :: (t ++ splitSlash b) := by
        simp only [splitSlash, if_neg hc]
        rw [ih, hht]
        rfl
      have l2 : splitSlash (c :: a') = (c :: h) :: t := by
        simp only [splitSlash, if_neg hc]
        rw [hht]
      rw [List.cons_append, l1, l2, List.cons_append]

theorem pathParts_append_slash (d op : String) :
    pathParts (d ++ "/" ++ op) = pathParts d ++ pathParts op := by
  unfold pathParts
  have hdata : (d ++ "/" ++ op).data = d.data ++ '/' :: op.data := by
    simp [String.data_append]
  rw [hdata, splitSlash_append, List.filter_append]

/-- `Path(...).name` ignores leading directory components: prefixing any
directory leaves it unchanged, as long as the path has a final component
at all. -/
theorem pathName_prefix_invariant (d op : String) (h : pathName op ≠ "") :
    pathName (d ++ "/" ++ op) = pathName op := by
  have hB : pathParts op ≠ [] := by
    intro hB0
    apply h
    unfold pathName
    rw [hB0]
    rfl
  unfold pathName
  rw [pathParts_append_slash, List.getLast?_append_of_ne_nil _ hB]

/-! ### Remaining claim theorems -/

/-- C10: whatever output path the caller supplies, `remove_background`
keeps only its final path component and writes under the fixed
`nobdg-images` folder: a successful run's `output_file` is always
`nobdg-images/<pathName op>`, and `pathName` discards every leading
directory component of the supplied path. -/
theorem c10_output_basename_confined :
    (∀ (now : String) (st : PBState) (input_path op : String)
        (quality : Nat) (preserve_format : Bool) (m : SingleMeta)
        (st' : PBState),
      remove_background now st input_path (some op) quality preserve_format
          = (SingleReturn.ok m, st') →
      m.output_file = pjoin "nobdg-images" (pathName op))
    ∧ (∀ d op : String, pathName op ≠ "" →
        pathName (d ++ "/" ++ op) = pathName op) := by
  constructor
  · intro now st input_path op quality preserve_format m st' h
    unfold remove_background at h
    split at h
    · exact absurd h (by simp)
    next hex =>
      split at h
      · exact absurd h (by simp)
      next st1 hmk =>
        dsimp only at h
        split at h
        · exact absurd h (by simp)
        next img hopen =>
          split at h
          · exact absurd h (by simp)
          next st2 hsave =>
            split at h
            · exact absurd h (by simp)
            next elog hlog =>
              split at h
              · exact absurd h (by simp)
              next st3 hw =>
                obtain ⟨h1, h2⟩ := by simpa using h
                subst h1
                rfl
  · exact pathName_prefix_invariant

theorem c10_output_basename_confined_witness :
    (remove_background "T1" samplePngSt "a.png" (some "sub/dir/x.png") 95 false
      = (SingleReturn.ok
          { timestamp := "T1", input_file := "a.png",
            output_file := "nobdg-images/x.png",
            output_folder := "nobdg-images", image_size := (1, 1),
            output_quality := 95, preserve_format := false, success := true },
         (remove_background "T1" samplePngSt "a.png" (some "sub/dir/x.png")
            95 false).2))
    ∧ ({ timestamp := "T1", input_file := "a.png",
         output_file := "nobdg-images/x.png", output_folder := "nobdg-images",
         image_size := (1, 1), output_quality := 95, preserve_format := false,
         success := true } : SingleMeta).output_file
        = pjoin "nobdg-images" (pathName "sub/dir/x.png")
    ∧ pathName "x.png" ≠ ""
    ∧ pathName ("sub/dir" ++ "/" ++ "x.png") = pathName "x.png" :=
  ⟨rfl,
    c10_output_basename_confined.1 "T1" samplePngSt "a.png" "sub/dir/x.png"
      95 false _ _ rfl,
    by decide,
    c10_output_basename_confined.2 "sub/dir" "x.png" (by decide)⟩

/-- C8: when a second successful `remove_background` run finds the log
file left by a first successful run, it appends to it rather than
overwriting: afterwards `processed_images` is the prior list extended by
the new record (and the prior list already ends with the first run's
record), while `last_updated` equals the second run's timestamp. -/
theorem c8_log_append (now1 now2 : String) (st0 st1 st2 : PBState)
    (p1 p2 : String) (op1 op2 : Option String) (q1 q2 : Nat) (pf1 pf2 : Bool)
    (m1 m2 : SingleMeta) (l1 : ProcLog)
    (h1 : remove_background now1 st0 p1 op1 q1 pf1 = (SingleReturn.ok m1, st1))
    (hl : st1.fs.lookup (pjoin "nobdg-images" logFileName)
        = some (Node.file (FData.log l1)))
    (h2 : remove_background now2 st1 p2 op2 q2 pf2 = (SingleReturn.ok m2, st2)) :
    ∃ l2, st2.fs.lookup (pjoin "nobdg-images" logFileName)
        = some (Node.file (FData.log l2))
      ∧ l2.processed_images = some (l1.processed_images.getD [] ++ [m2])
      ∧ l2.last_updated = some m2.timestamp
      ∧ ∃ xs, l1.processed_images = some (xs ++ [m1]) := by
  obtain ⟨l2, xs2, hlk2, hpi2, hlu2, hprev2, _⟩ := rb_ok_log h2
  obtain ⟨l1', xs1, hlk1, hpi1, _, _, _⟩ := rb_ok_log h1
  rw [hl] at hlk1
  have heq1 : l1 = l1' := by simpa using hlk1
  have hxs2 : xs2 = l1.processed_images.getD [] := hprev2 l1 hl
  subst hxs2
  exact ⟨l2, hlk2, hpi2, hlu2, ⟨xs1, by rw [heq1]; exact hpi1⟩⟩

theorem c8_log_append_witness :
    (remove_background "T1" samplePngSt "a.png" none 95 false
      = (SingleReturn.ok sampleMeta1,
         (remove_background "T1" samplePngSt "a.png" none 95 false).2))
    ∧ ((remove_background "T1" samplePngSt "a.png" none 95 false).2).fs.lookup
        (pjoin "nobdg-images" logFileName)
      = some (Node.file (FData.log sampleLog1))
    ∧ (remove_background "T2"
        (remove_background "T1" samplePngSt "a.png" none 95 false).2
        "a.png" none 90 false
      = (SingleReturn.ok sampleMeta2,
         (remove_background "T2"
            (remove_background "T1" samplePngSt "a.png" none 95 false).2
            "a.png" none 90 false).2))
    ∧ ∃ l2, ((remove_background "T2"
          (remove_background "T1" samplePngSt "a.png" none 95 false).2
          "a.png" none 90 false).2).fs.lookup (pjoin "nobdg-images" logFileName)
        = some (Node.file (FData.log l2))
      ∧ l2.processed_images
        = some (sampleLog1.processed_images.getD [] ++ [sampleMeta2])
      ∧ l2.last_updated = some sampleMeta2.timestamp
      ∧ ∃ xs, sampleLog1.processed_images = some (xs ++ [sampleMeta1]) :=
  ⟨rfl, rfl, rfl,
    c8_log_append "T1" "T2" samplePngSt
      (remove_background "T1" samplePngSt "a.png" none 95 false).2
      (remove_background "T2"
        (remove_background "T1" samplePngSt "a.png" none 95 false).2
        "a.png" none 90 false).2
      "a.png" "a.png" none none 95 90 false false
      sampleMeta1 sampleMeta2 sampleLog1 rfl rfl rfl⟩

/-- C7: in both processors, when the format is preserved and the input
name ends (case-insensitively) in `.jpg`/`.jpeg`, the removal result is
composited onto an opaque white background through its alpha band before
saving, so the saved image carries no alpha channel. -/
theorem c7_jpeg_output_no_alpha :
    (∀ (now : String) (st : PBState) (input_path : String)
        (output_path? : Option String) (quality : Nat) (m : SingleMeta)
        (st' : PBState),
      remove_background now st input_path output_path? quality true
          = (SingleReturn.ok m, st') →
      endsWithAny (strLower input_path) [".jpg", ".jpeg"] = true →
      ∃ i, st'.fs.lookup m.output_file = some (Node.file (FData.img i true))
        ∧ i.hasAlpha = false ∧ i.whiteComposited = true)
    ∧ (∀ (st : PBState) (input_folder output_folder filename : String)
        (quality : Nat) (st' : PBState) (oname : String),
      processOne st input_folder output_folder filename true quality
          = Except.ok (st', oname) →
      endsWithAny (strLower filename) [".jpg", ".jpeg"] = true →
      ∃ i, st'.fs.lookup (pjoin output_folder oname)
          = some (Node.file (FData.img i true))
        ∧ i.hasAlpha = false ∧ i.whiteComposited = true) := by
  constructor
  · intro now st input_path output_path? quality m st' h hj
    unfold remove_background at h
    split at h
    · exact absurd h (by simp)
    next hex =>
      split at h
      · exact absurd h (by simp)
      next st1 hmk =>
        dsimp only at h
        generalize hN : (match output_path? with
          | none => pathStem input_path ++ "_nobgd.png"
          | some op => pathName op) = N at h
        split at h
        · exact absurd h (by simp)
        next img hopen =>
          rw [Bool.true_and, hj, if_pos rfl] at h
          simp only [removeBg, compositeWhite, if_true] at h
          split at h
          · exact absurd h (by simp)
          next st2 hsave =>
            obtain ⟨_, hself2, hother2, _, _⟩ := write_ok_elim hsave
            split at h
            · exact absurd h (by simp)
            next elog hlog =>
              split at h
              · exact absurd h (by simp)
              next st3 hw =>
                obtain ⟨h1, h2⟩ := by simpa using h
                subst h1
                subst h2
                by_cases hNlog : N = logFileName
                · rw [hNlog] at hself2
                  split at hlog
                  next l0 heq2 => rw [heq2] at hself2; simp at hself2
                  · exact absurd hlog (by simp)
                  · exact absurd hlog (by simp)
                  next heq2 => rw [heq2] at hself2; simp at hself2
                · obtain ⟨_, _, hother3, _, _⟩ := write_ok_elim hw
                  have hpres : st3.fs.lookup (pjoin "nobdg-images" N)
                      = st2.fs.lookup (pjoin "nobdg-images" N) :=
                    hother3 _ (pjoin_ne_left _ _)
                      (fun hc => hNlog (pjoin_right_inj hc))
                  exact ⟨⟨img.width, img.height, Mode.RGB, true⟩,
                    by rw [hpres]; exact hself2, rfl, rfl⟩
  · intro st input_folder output_folder filename quality st' oname h hj
    unfold processOne at h
    split at h
    · exact absurd h (by simp)
    next img hopen =>
      dsimp only at h
      rw [Bool.true_and, hj, if_pos rfl] at h
      simp only [removeBg, compositeWhite, if_true] at h
      split at h
      · exact absurd h (by simp)
      next st2 hw =>
        obtain ⟨h1, h2⟩ := by simpa using h
        subst h1
        subst h2
        obtain ⟨_, hself, _, _, _⟩ := write_ok_elim hw
        exact ⟨_, hself, rfl, rfl⟩

theorem c7_jpeg_output_no_alpha_witness :
    (remove_background "T7" sampleJpegSt "photo.JPG" none 95 true
      = (SingleReturn.ok sampleMeta7,
         (remove_background "T7" sampleJpegSt "photo.JPG" none 95 true).2))
    ∧ endsWithAny (strLower "photo.JPG") [".jpg", ".jpeg"] = true
    ∧ (∃ i, ((remove_background "T7" sampleJpegSt "photo.JPG" none
          95 true).2).fs.lookup sampleMeta7.output_file
        = some (Node.file (FData.img i true))
      ∧ i.hasAlpha = false ∧ i.whiteComposited = true)
    ∧ (processOne sampleJpegBatchSt "inp" "out" "b.JPG" true 95
      = Except.ok (poState (processOne sampleJpegBatchSt "inp" "out" "b.JPG"
          true 95), "b.jpg"))
    ∧ endsWithAny (strLower "b.JPG") [".jpg", ".jpeg"] = true
    ∧ ∃ i, (poState (processOne sampleJpegBatchSt "inp" "out" "b.JPG"
          true 95)).fs.lookup (pjoin "out" "b.jpg")
        = some (Node.file (FData.img i true))
      ∧ i.hasAlpha = false ∧ i.whiteComposited = true :=
  ⟨rfl, rfl,
    c7_jpeg_output_no_alpha.1 "T7" sampleJpegSt "photo.JPG" none 95
      sampleMeta7
      (remove_background "T7" sampleJpegSt "photo.JPG" none 95 true).2
      rfl rfl,
    rfl, rfl,
    c7_jpeg_output_no_alpha.2 sampleJpegBatchSt "inp" "out" "b.JPG" 95
      (poState (processOne sampleJpegBatchSt "inp" "out" "b.JPG" true 95))
      "b.jpg" rfl rfl⟩

end RmBg
